import Mathlib

/-!
Verification of the customer-orders validation and RAG pipeline.

The development shallowly embeds the pipeline of
`src/pyspark/rag_calculator.py` and `src/pyspark/customer_orders_pipeline.py`:
DataFrames become lists of record structures, nullable columns become
`Option` fields, double columns become `ℚ`, integral columns become `Int`,
and each Spark transformation becomes a Lean function on lists.  The
`current_timestamp()` read in the routing step is modelled as an explicit
timestamp argument threaded through the pipeline.
-/

namespace CustomerOrders

/-- Calendar date as the pipeline observes it: `ym` is the linearized
calendar month (what `date_trunc("month", order_date)` identifies) and
`day` the position within that month. -/
structure Date where
  ym : Nat
  day : Nat
deriving DecidableEq

/-- One row of the orders table (`models.OrderSchema`).  `account_id` is
kept nullable because the validation rules test it for null. -/
structure Order where
  order_id : String
  account_id : Option String
  order_date : Date
  total_amount : ℚ
  product_count : Int
  status : String
deriving DecidableEq

/-- One row of the accounts table (`models.AccountSchema`), restricted to
the three columns the enrichment join selects. -/
structure Account where
  account_id : Option String
  customer_name : Option String
  order_limit : Option Int
deriving DecidableEq

/-- One row of the transactions table (`models.TransactionSchema`). -/
structure Transaction where
  transaction_id : String
  order_id : String
  amount : ℚ
  transaction_date : Nat
  status : String
deriving DecidableEq

/-- One row of the monthly aggregation produced by
`OrderValidator.calculate_monthly_totals`. -/
structure MonthlyTotal where
  account_id : Option String
  order_month : Nat
  monthly_total : ℚ
  order_count : Int
  total_products : Int
deriving DecidableEq

/-- One enriched account-month record, after the left join with the
accounts table in `OrderValidator.enrich_with_account_data`. -/
structure Enriched where
  account_id : Option String
  order_month : Nat
  monthly_total : ℚ
  order_count : Int
  total_products : Int
  customer_name : Option String
  order_limit : Option Int
deriving DecidableEq

/-- SQL equality on nullable join keys: a null key hits nothing. -/
def sqlKeyEq : Option String → Option String → Bool
  | some x, some y => x = y
  | _, _ => false

/-- Embedding of `OrderValidator.calculate_monthly_totals`: add the
`order_month` column by truncating `order_date` to its month, group by
`(account_id, order_month)` (Spark `groupBy` keeps null keys as a group of
their own), and aggregate `sum(total_amount)`, `count(order_id)` and
`sum(product_count)`.  `order_id` is a non-nullable column, so its count
is the size of the group. -/
def calculate_monthly_totals (orders : List Order) : List MonthlyTotal :=
  ((orders.map fun o => (o.account_id, o.order_date.ym)).dedup).map fun k =>
    let grp := orders.filter fun o => o.account_id = k.1 ∧ o.order_date.ym = k.2
    { account_id := k.1
      order_month := k.2
      monthly_total := (grp.map Order.total_amount).sum
      order_count := (grp.length : Int)
      total_products := (grp.map Order.product_count).sum }

/-- Embedding of `OrderValidator.enrich_with_account_data`: left join of
the monthly totals with `accounts.select(account_id, customer_name,
order_limit)` on `account_id`.  Each left row is paired with every
matching account row, or null-filled when no account hits (in
particular when its key is null, since SQL equality never hits null). -/
def enrich_with_account_data (monthly_totals : List MonthlyTotal)
    (accounts : List Account) : List Enriched :=
  monthly_totals.flatMap fun r =>
    let hits := accounts.filter fun a => sqlKeyEq r.account_id a.account_id
    if hits.isEmpty then
      [{ account_id := r.account_id, order_month := r.order_month
         monthly_total := r.monthly_total, order_count := r.order_count
         total_products := r.total_products
         customer_name := none, order_limit := none }]
    else
      hits.map fun a =>
        { account_id := r.account_id, order_month := r.order_month
          monthly_total := r.monthly_total, order_count := r.order_count
          total_products := r.total_products
          customer_name := a.customer_name, order_limit := a.order_limit }

/-- The `F.when` chain of `OrderValidator.apply_validation_rules`: the
first matching predicate, in source order, yields the hold reason. -/
def holdReason (r : Enriched) : Option String :=
  if r.account_id = none then some "MISSING_ACCOUNT_ID"
  else if r.customer_name = none then some "MISSING_CUSTOMER_NAME"
  else if r.monthly_total < 0 then some "NEGATIVE_AMOUNT"
  else if r.order_count ≤ 0 then some "INVALID_ORDER_COUNT"
  else if r.order_limit = none then some "MISSING_ORDER_LIMIT"
  else none

/-- A validated record: the enriched record together with the
`hold_reason` and `validation_failed` columns. -/
structure Validated extends Enriched where
  hold_reason : Option String
  validation_failed : Bool
deriving DecidableEq

/-- Embedding of `OrderValidator.apply_validation_rules`: attach
`hold_reason` (the first-match-wins rule chain) and `validation_failed`
(`hold_reason IS NOT NULL`) to every record. -/
def apply_validation_rules (df : List Enriched) : List Validated :=
  df.map fun r =>
    { toEnriched := r
      hold_reason := holdReason r
      validation_failed := (holdReason r).isSome }

/-- The seven base columns selected by `OrderValidator.split_by_validation`
for both output tables. -/
structure BaseRow where
  account_id : Option String
  customer_name : Option String
  order_month : Nat
  monthly_total : ℚ
  order_count : Int
  total_products : Int
  order_limit : Option Int
deriving DecidableEq

/-- Projection of a validated record onto the base columns. -/
def Validated.toBase (r : Validated) : BaseRow :=
  { account_id := r.account_id
    customer_name := r.customer_name
    order_month := r.order_month
    monthly_total := r.monthly_total
    order_count := r.order_count
    total_products := r.total_products
    order_limit := r.order_limit }

/-- One row of the holding table: the base columns plus `hold_reason` and
the `hold_timestamp` stamped by `current_timestamp()`. -/
structure HoldingRow where
  base : BaseRow
  hold_reason : Option String
  hold_timestamp : Nat
deriving DecidableEq

/-- The dual output of the pipeline (`PipelineOutput` dataclass). -/
structure PipelineOutput where
  result_table : List BaseRow
  holding_table : List HoldingRow
deriving DecidableEq

/-- Embedding of `OrderValidator.split_by_validation`.  Records with
`validation_failed` false go to the result table; records with it true go
to the holding table together with their hold reason and the wall-clock
timestamp `ts` of the routing step. -/
def split_by_validation (ts : Nat) (df : List Validated) : PipelineOutput :=
  { result_table := (df.filter fun r => !r.validation_failed).map Validated.toBase
    holding_table := (df.filter fun r => r.validation_failed).map fun r =>
      { base := r.toBase, hold_reason := r.hold_reason, hold_timestamp := ts } }

/-- The `agg(F.max(order_month))` aggregate of `validate_orders`: the
maximum `order_month` over the enriched records, none on an empty input. -/
def maxMonth (df : List Enriched) : Option Nat :=
  (df.map Enriched.order_month).max?

/-- The month-selection step of `OrderValidator.validate_orders`: keep the
rows of the explicitly supplied target month, or of the global maximum
`order_month` when none is supplied (no filter at all when the input is
empty and the maximum is null). -/
def select_target_month (df : List Enriched) (target_month : Option Nat) :
    List Enriched :=
  match target_month with
  | some m => df.filter fun r => r.order_month = m
  | none =>
    match maxMonth df with
    | some m => df.filter fun r => r.order_month = m
    | none => df

/-- Embedding of `OrderValidator.validate_orders`: aggregate, enrich,
narrow to the target month, validate and split.  `ts` models the
wall-clock time read by the routing step. -/
def validate_orders (orders : List Order) (accounts : List Account)
    (target_month : Option Nat) (ts : Nat) : PipelineOutput :=
  let monthly_totals := calculate_monthly_totals orders
  let enriched := enrich_with_account_data monthly_totals accounts
  let selected := select_target_month enriched target_month
  split_by_validation ts (apply_validation_rules selected)

/-- The `order_count > order_limit` condition of the risk scoring, with
SQL null semantics: a null `order_limit` makes the comparison false. -/
def exceedsLimit (r : Validated) : Bool :=
  match r.order_limit with
  | some l => decide (l < r.order_count)
  | none => false

/-- The risk score of `OrderValidator.calculate_customer_risk_score`:
20 points when `order_count` exceeds `order_limit`, 15 when
`monthly_total` exceeds 10000, 10 when validation failed. -/
def risk_score (r : Validated) : Int :=
  0 + (if exceedsLimit r then 20 else 0)
    + (if (10000 : ℚ) < r.monthly_total then 15 else 0)
    + (if r.validation_failed then 10 else 0)

/-- The risk category of `OrderValidator.calculate_customer_risk_score`:
HIGH_RISK at score 50 and above, MEDIUM_RISK at 25 and above, LOW_RISK
otherwise. -/
def risk_category (r : Validated) : String :=
  if risk_score r ≥ 50 then "HIGH_RISK"
  else if risk_score r ≥ 25 then "MEDIUM_RISK"
  else "LOW_RISK"

/-- An order row enriched with the transaction summary columns of
`CustomerOrdersPipeline.join_orders_with_transactions`. -/
structure EnrichedOrder where
  order_id : String
  account_id : Option String
  order_date : Date
  total_amount : ℚ
  product_count : Int
  status : String
  total_paid : ℚ
  transaction_count : Int
deriving DecidableEq

/-- The order columns of an enriched order row. -/
def EnrichedOrder.toOrder (r : EnrichedOrder) : Order :=
  { order_id := r.order_id
    account_id := r.account_id
    order_date := r.order_date
    total_amount := r.total_amount
    product_count := r.product_count
    status := r.status }

/-- One row of the per-order transaction summary. -/
structure TxSummary where
  order_id : String
  total_paid : ℚ
  transaction_count : Int
deriving DecidableEq

/-- The `groupBy(order_id).agg(sum(amount), count(transaction_id))` step
of `join_orders_with_transactions`: one summary row per distinct
`order_id`.  `transaction_id` is a non-nullable column, so its count is
the size of the group. -/
def transactionSummary (txs : List Transaction) : List TxSummary :=
  ((txs.map Transaction.order_id).dedup).map fun k =>
    let grp := txs.filter fun t => t.order_id = k
    { order_id := k
      total_paid := (grp.map Transaction.amount).sum
      transaction_count := (grp.length : Int) }

/-- Embedding of `CustomerOrdersPipeline.join_orders_with_transactions`:
left join of the orders with the per-order transaction summary on
`order_id`, then `fillna` replacing a null `total_paid` with 0.0 and a
null `transaction_count` with 0. -/
def join_orders_with_transactions (orders : List Order)
    (txs : List Transaction) : List EnrichedOrder :=
  let summary := transactionSummary txs
  orders.flatMap fun o =>
    let hits := summary.filter fun s => s.order_id = o.order_id
    if hits.isEmpty then
      [{ order_id := o.order_id, account_id := o.account_id
         order_date := o.order_date, total_amount := o.total_amount
         product_count := o.product_count, status := o.status
         total_paid := 0, transaction_count := 0 }]
    else
      hits.map fun s =>
        { order_id := o.order_id, account_id := o.account_id
          order_date := o.order_date, total_amount := o.total_amount
          product_count := o.product_count, status := o.status
          total_paid := s.total_paid, transaction_count := s.transaction_count }

/-- The status filter of `CustomerOrdersPipeline.load_orders`: only
COMPLETED and PENDING orders enter the pipeline (CSV reading itself is
out of scope). -/
def load_orders (orders : List Order) : List Order :=
  orders.filter fun o => o.status = "COMPLETED" ∨ o.status = "PENDING"

/-- The status filter of `CustomerOrdersPipeline.load_transactions`: only
SUCCESS transactions are kept (CSV reading itself is out of scope). -/
def load_transactions (txs : List Transaction) : List Transaction :=
  txs.filter fun t => t.status = "SUCCESS"

/-- Embedding of `CustomerOrdersPipeline.run_pipeline`: load (filter) the
orders and transactions, enrich the orders with the transaction summary,
and run the validator.  The validator's aggregation reads only the order
columns of the enriched orders, which `EnrichedOrder.toOrder` projects
out. -/
def run_pipeline (accounts : List Account) (orders : List Order)
    (txs : List Transaction) (target_month : Option Nat) (ts : Nat) :
    PipelineOutput :=
  let enriched_orders :=
    join_orders_with_transactions (load_orders orders) (load_transactions txs)
  validate_orders (enriched_orders.map EnrichedOrder.toOrder) accounts
    target_month ts

/-- The summary returned by `CustomerOrdersPipeline.get_result_summary`. -/
structure ResultSummary where
  total_records : Nat
  total_amount : ℚ
  total_orders : Int
deriving DecidableEq

/-- Embedding of `CustomerOrdersPipeline.get_result_summary`: all-zero on
an empty result table, otherwise the count of records and the sums of
`monthly_total` and `order_count`. -/
def get_result_summary (result_table : List BaseRow) : ResultSummary :=
  if result_table.length = 0 then
    { total_records := 0, total_amount := 0, total_orders := 0 }
  else
    { total_records := result_table.length
      total_amount := (result_table.map BaseRow.monthly_total).sum
      total_orders := (result_table.map BaseRow.order_count).sum }

/-- Modelled from the spec: the class `RAGCalculator` is imported by the
package initializer and exercised by the tests but its definition is
absent from the sources.  This models its RAG threshold mapping from
`percentage_change` to `rag_status` following the spec: null maps to
GREEN, values at least 50.0 to RED, values at least 30.0 and below 50.0
to AMBER, everything else to GREEN. -/
def rag_status_of (percentage_change : Option ℚ) : String :=
  match percentage_change with
  | none => "GREEN"
  | some p =>
    if 50 ≤ p then "RED"
    else if 30 ≤ p then "AMBER"
    else "GREEN"

/-- Concrete order row used by the concrete witnesses. -/
def sampleOrder : Order :=
  { order_id := "ORD001", account_id := some "ACC001"
    order_date := { ym := 5, day := 1 }, total_amount := 100
    product_count := 1, status := "COMPLETED" }

/-- Concrete account row matching `sampleOrder`. -/
def sampleAccount : Account :=
  { account_id := some "ACC001", customer_name := some "Test Corp"
    order_limit := some 10 }

/-- Concrete enriched account-month record used by the concrete
witnesses. -/
def sampleEnriched : Enriched :=
  { account_id := some "ACC001", order_month := 5, monthly_total := 100
    order_count := 1, total_products := 1
    customer_name := some "Test Corp", order_limit := some 10 }

/-! Theorems. -/

/-- Claim C1: the validation rule engine evaluates the predicates in the fixed
priority order MISSING_ACCOUNT_ID, MISSING_CUSTOMER_NAME,
NEGATIVE_AMOUNT, INVALID_ORDER_COUNT, MISSING_ORDER_LIMIT, stopping at
the first match: each reason is produced exactly when its own predicate
holds and every higher-priority predicate fails, at most one reason is
produced, and a record with both `account_id` and `customer_name` null
receives MISSING_ACCOUNT_ID. -/
theorem validation_rule_priority (r : Enriched) :
    (holdReason r = some "MISSING_ACCOUNT_ID" ↔ r.account_id = none) ∧
    (holdReason r = some "MISSING_CUSTOMER_NAME" ↔
      r.account_id ≠ none ∧ r.customer_name = none) ∧
    (holdReason r = some "NEGATIVE_AMOUNT" ↔
      r.account_id ≠ none ∧ r.customer_name ≠ none ∧ r.monthly_total < 0) ∧
    (holdReason r = some "INVALID_ORDER_COUNT" ↔
      r.account_id ≠ none ∧ r.customer_name ≠ none ∧
      ¬ r.monthly_total < 0 ∧ r.order_count ≤ 0) ∧
    (holdReason r = some "MISSING_ORDER_LIMIT" ↔
      r.account_id ≠ none ∧ r.customer_name ≠ none ∧
      ¬ r.monthly_total < 0 ∧ ¬ r.order_count ≤ 0 ∧ r.order_limit = none) ∧
    (holdReason r = none ↔
      r.account_id ≠ none ∧ r.customer_name ≠ none ∧
      ¬ r.monthly_total < 0 ∧ ¬ r.order_count ≤ 0 ∧ r.order_limit ≠ none) := by
  unfold holdReason
  by_cases h1 : r.account_id = none <;>
  by_cases h2 : r.customer_name = none <;>
  by_cases h3 : r.monthly_total < 0 <;>
  by_cases h4 : r.order_count ≤ 0 <;>
  by_cases h5 : r.order_limit = none <;>
  simp [h1, h2, h3, h4, h5]

/-- Claim C3: the RAG classifier is total over nullable percentage changes:
null maps to GREEN, values at least 50 to RED, values at least 30 and
below 50 to AMBER, and everything below 30 (negative changes included) to
GREEN, with both band boundaries inclusive on the lower edge. -/
theorem rag_classifier_thresholds :
    rag_status_of none = "GREEN" ∧
    ∀ p : ℚ,
      (rag_status_of (some p) = "RED" ↔ 50 ≤ p) ∧
      (rag_status_of (some p) = "AMBER" ↔ 30 ≤ p ∧ p < 50) ∧
      (rag_status_of (some p) = "GREEN" ↔ p < 30) := by
  refine ⟨rfl, fun p => ?_⟩
  unfold rag_status_of
  by_cases h1 : 50 ≤ p <;> by_cases h2 : 30 ≤ p <;>
    simp [h1, h2] <;> linarith

/-- Claim C9: the customer risk score is bounded by 45, so `risk_category` is
never HIGH_RISK; it is MEDIUM_RISK exactly when at least two of the three
scoring conditions (order count over limit, monthly total over 10000,
validation failed) hold, and LOW_RISK otherwise. -/
theorem risk_score_never_high (r : Validated) :
    risk_score r ≤ 45 ∧
    risk_category r ≠ "HIGH_RISK" ∧
    (risk_category r = "MEDIUM_RISK" ↔
      ((exceedsLimit r = true ∧ (10000 : ℚ) < r.monthly_total) ∨
       (exceedsLimit r = true ∧ r.validation_failed = true) ∨
       ((10000 : ℚ) < r.monthly_total ∧ r.validation_failed = true))) ∧
    (risk_category r = "LOW_RISK" ↔
      ¬ ((exceedsLimit r = true ∧ (10000 : ℚ) < r.monthly_total) ∨
         (exceedsLimit r = true ∧ r.validation_failed = true) ∨
         ((10000 : ℚ) < r.monthly_total ∧ r.validation_failed = true))) := by
  unfold risk_category risk_score
  by_cases h1 : exceedsLimit r = true <;>
  by_cases h2 : (10000 : ℚ) < r.monthly_total <;>
  by_cases h3 : r.validation_failed = true <;>
    simp [h1, h2, h3]

/-- Filtering a list by a predicate and by its negation partitions its
length. -/
theorem length_filter_partition {α : Type} (p : α → Bool) (l : List α) :
    (l.filter p).length + (l.filter fun a => !p a).length = l.length := by
  induction l with
  | nil => rfl
  | cons a l ih => cases h : p a <;> simp [List.filter, h, ← ih] <;> omega

/-- On records produced by the rule engine, the `validation_failed` flag
agrees with `hold_reason` being non-null. -/
theorem validation_failed_iff_hold_reason (e : List Enriched) :
    ∀ v ∈ apply_validation_rules e,
      v.validation_failed = v.hold_reason.isSome := by
  intro v hv
  simp only [apply_validation_rules, List.mem_map] at hv
  obtain ⟨r, _, rfl⟩ := hv
  rfl

/-- Claim C2: the output router partitions the validated records into two sets
that are disjoint and exhaustive over its input: a record reaches the
result table exactly when its `hold_reason` is null, reaches the holding
table exactly when its `hold_reason` is non-null, and no record is
dropped, so the two output counts sum to the input count. -/
theorem router_partition (e : List Enriched) (ts : Nat) :
    (split_by_validation ts (apply_validation_rules e)).result_table =
      ((apply_validation_rules e).filter fun r => r.hold_reason = none).map
        Validated.toBase ∧
    (split_by_validation ts (apply_validation_rules e)).holding_table =
      ((apply_validation_rules e).filter fun r => r.hold_reason ≠ none).map
        (fun r => { base := r.toBase, hold_reason := r.hold_reason
                    hold_timestamp := ts }) ∧
    (split_by_validation ts (apply_validation_rules e)).result_table.length +
      (split_by_validation ts
        (apply_validation_rules e)).holding_table.length = e.length := by
  refine ⟨?_, ?_, ?_⟩
  · simp only [split_by_validation]
    congr 1
    apply List.filter_congr
    intro v hv
    rw [validation_failed_iff_hold_reason e v hv]
    cases h : v.hold_reason <;> simp [h]
  · simp only [split_by_validation]
    congr 1
    apply List.filter_congr
    intro v hv
    rw [validation_failed_iff_hold_reason e v hv]
    cases h : v.hold_reason <;> simp [h]
  · simp only [split_by_validation, List.length_map]
    rw [Nat.add_comm,
      length_filter_partition (fun r : Validated => r.validation_failed)]
    simp [apply_validation_rules]

/-- Characterization of the maximum month aggregate: it is the month of
some record and bounds the months of all records. -/
theorem maxMonth_eq_some_iff (e : List Enriched) (m : Nat) :
    maxMonth e = some m ↔
      (∃ r ∈ e, r.order_month = m) ∧ ∀ r ∈ e, r.order_month ≤ m := by
  unfold maxMonth
  rw [List.max?_eq_some_iff (fun a => Nat.le_refl a) max_choice
    (fun _ _ _ => Nat.max_le)]
  simp

/-- Claim C4: the month-selection step keeps exactly the rows whose
`order_month` equals the supplied target month, and when no target month
is supplied it keeps exactly the rows whose `order_month` equals the
single global maximum month over all records, so a record whose month is
below that global maximum is excluded entirely. -/
theorem month_selection (e : List Enriched) (r : Enriched) :
    (∀ m : Nat, maxMonth e = some m ↔
      (∃ x ∈ e, x.order_month = m) ∧ ∀ x ∈ e, x.order_month ≤ m) ∧
    (∀ m : Nat,
      r ∈ select_target_month e (some m) ↔ r ∈ e ∧ r.order_month = m) ∧
    (r ∈ select_target_month e none ↔
      r ∈ e ∧ maxMonth e = some r.order_month) := by
  refine ⟨fun m => maxMonth_eq_some_iff e m, ?_, ?_⟩
  · intro m
    simp [select_target_month, List.mem_filter]
  · unfold select_target_month
    cases h : maxMonth e with
    | none =>
      have he : e = [] := by
        unfold maxMonth at h
        rw [List.max?_eq_none_iff] at h
        exact List.map_eq_nil_iff.mp h
      subst he
      simp
    | some m =>
      simp only [List.mem_filter, decide_eq_true_eq]
      constructor
      · rintro ⟨hre, hm⟩
        subst hm
        exact ⟨hre, rfl⟩
      · rintro ⟨hre, hmax⟩
        exact ⟨hre, (Option.some.inj hmax).symm⟩

/-- Filtering a duplicate-free list for one value yields that value alone
or nothing. -/
theorem filter_eq_of_nodup {α : Type} [DecidableEq α] {l : List α}
    (h : l.Nodup) (x : α) :
    (l.filter fun y => y = x) = if x ∈ l then [x] else [] := by
  induction l with
  | nil => simp
  | cons a l ih =>
    rw [List.nodup_cons] at h
    by_cases hax : a = x
    · subst hax
      have hnl : (l.filter fun y => y = a) = [] := by
        rw [List.filter_eq_nil_iff]
        intro b hb hba
        exact h.1 ((decide_eq_true_eq.mp hba) ▸ hb)
      simp [List.filter_cons, hnl, h.1]
    · simp [List.filter_cons, hax, ih h.2, List.mem_cons, Ne.symm hax]

/-- Claim C5: the monthly aggregator produces, for each pair of an account key
and a month, exactly one row when some order falls in that group and no
row otherwise (no zero-fill), and that row carries the sum of
`total_amount`, the count of orders and the sum of `product_count` of the
group. -/
theorem monthly_aggregation (orders : List Order) (a : Option String)
    (m : Nat) :
    ((calculate_monthly_totals orders).filter fun row =>
        row.account_id = a ∧ row.order_month = m) =
      (if (orders.filter fun o =>
            o.account_id = a ∧ o.order_date.ym = m).isEmpty then []
       else
        [{ account_id := a, order_month := m
           monthly_total := ((orders.filter fun o =>
             o.account_id = a ∧ o.order_date.ym = m).map
               Order.total_amount).sum
           order_count := ((orders.filter fun o =>
             o.account_id = a ∧ o.order_date.ym = m).length : Int)
           total_products := ((orders.filter fun o =>
             o.account_id = a ∧ o.order_date.ym = m).map
               Order.product_count).sum }]) := by
  unfold calculate_monthly_totals
  rw [List.filter_map]
  have hpred : ∀ k ∈ (orders.map fun o =>
      (o.account_id, o.order_date.ym)).dedup,
      ((fun row : MonthlyTotal =>
        decide (row.account_id = a ∧ row.order_month = m)) ∘
        (fun k : Option String × Nat =>
          let grp := orders.filter fun o =>
            o.account_id = k.1 ∧ o.order_date.ym = k.2
          ({ account_id := k.1, order_month := k.2
             monthly_total := (grp.map Order.total_amount).sum
             order_count := (grp.length : Int)
             total_products :=
               (grp.map Order.product_count).sum } : MonthlyTotal))) k =
      decide (k = (a, m)) := by
    intro k _
    simp [Prod.ext_iff]
  rw [List.filter_congr hpred,
    filter_eq_of_nodup (List.nodup_dedup _) (a, m)]
  by_cases hmem : (a, m) ∈ (orders.map fun o =>
      (o.account_id, o.order_date.ym)).dedup
  · rw [if_pos hmem]
    have hne : ¬ ((orders.filter fun o =>
        o.account_id = a ∧ o.order_date.ym = m).isEmpty = true) := by
      rw [List.mem_dedup, List.mem_map] at hmem
      obtain ⟨o, ho, hk⟩ := hmem
      intro hcontra
      rw [List.isEmpty_iff, List.filter_eq_nil_iff] at hcontra
      rw [Prod.mk.injEq] at hk
      exact hcontra o ho (by simp [hk.1, hk.2])
    rw [if_neg hne]
    rfl
  · rw [if_neg hmem]
    have he : (orders.filter fun o =>
        o.account_id = a ∧ o.order_date.ym = m).isEmpty = true := by
      rw [List.isEmpty_iff, List.filter_eq_nil_iff]
      intro o ho hcon
      apply hmem
      rw [List.mem_dedup, List.mem_map]
      refine ⟨o, ho, ?_⟩
      rw [decide_eq_true_eq] at hcon
      rw [Prod.mk.injEq]
      exact ⟨hcon.1, hcon.2⟩
    rw [if_pos he]
    rfl

/-- The per-order transaction summary has pairwise distinct keys. -/
theorem transactionSummary_keys_nodup (txs : List Transaction) :
    ((transactionSummary txs).map TxSummary.order_id).Nodup := by
  unfold transactionSummary
  rw [List.map_map]
  have : (TxSummary.order_id ∘ fun k =>
      let grp := txs.filter fun t => t.order_id = k
      ({ order_id := k, total_paid := (grp.map Transaction.amount).sum
         transaction_count := (grp.length : Int) } : TxSummary)) =
      fun k => k := rfl
  rw [this, List.map_id']
  exact List.nodup_dedup _

/-- Every summary row's key is the key of some transaction. -/
theorem mem_transactionSummary_src {txs : List Transaction} {s : TxSummary}
    (hs : s ∈ transactionSummary txs) : ∃ t ∈ txs, t.order_id = s.order_id := by
  unfold transactionSummary at hs
  rw [List.mem_map] at hs
  obtain ⟨k, hk, rfl⟩ := hs
  rw [List.mem_dedup, List.mem_map] at hk
  obtain ⟨t, ht, rfl⟩ := hk
  exact ⟨t, ht, rfl⟩

/-- Filtering a list whose keys under `f` are pairwise distinct for a
fixed key yields nothing or a single element with that key. -/
theorem filter_key_of_nodup {α β : Type} [DecidableEq β] (f : α → β)
    {l : List α} (h : (l.map f).Nodup) (k : β) :
    (l.filter fun y => f y = k) = [] ∨
    ∃ s, (l.filter fun y => f y = k) = [s] ∧ f s = k ∧ s ∈ l := by
  induction l with
  | nil => left; rfl
  | cons a l ih =>
    rw [List.map_cons, List.nodup_cons] at h
    by_cases hak : f a = k
    · right
      refine ⟨a, ?_, hak, List.mem_cons_self a l⟩
      have hnl : (l.filter fun y => f y = k) = [] := by
        rw [List.filter_eq_nil_iff]
        intro b hb hbk
        rw [decide_eq_true_eq] at hbk
        exact h.1 ((hbk.trans hak.symm) ▸ List.mem_map_of_mem f hb)
      simp [List.filter_cons, hak, hnl]
    · rcases ih h.2 with h0 | ⟨s, hs, hks, hsl⟩
      · left; simp [List.filter_cons, hak, h0]
      · right
        exact ⟨s, by simp [List.filter_cons, hak, hs],
          hks, List.mem_cons_of_mem a hsl⟩

/-- The transaction join leaves the order columns of each row untouched:
projecting the joined rows back onto the order columns recovers the
orders input exactly, whatever the transactions are. -/
theorem join_map_toOrder (orders : List Order) (txs : List Transaction) :
    (join_orders_with_transactions orders txs).map EnrichedOrder.toOrder =
      orders := by
  induction orders with
  | nil => rfl
  | cons o rest ih =>
    unfold join_orders_with_transactions at ih ⊢
    rw [List.flatMap_cons, List.map_append, ih]
    rcases filter_key_of_nodup TxSummary.order_id
      (transactionSummary_keys_nodup txs) o.order_id with h | ⟨s, hs, _, _⟩
    · rw [h]
      rfl
    · rw [hs]
      rfl

/-- Claim C10: the transaction join returns exactly one output row per input
order row, leaves every original order column unchanged, and gives
`total_paid` 0 and `transaction_count` 0 to each order with no matching
SUCCESS transaction. -/
theorem join_one_row_per_order (orders : List Order)
    (txs : List Transaction) :
    (join_orders_with_transactions orders
      (load_transactions txs)).length = orders.length ∧
    (join_orders_with_transactions orders
      (load_transactions txs)).map EnrichedOrder.toOrder = orders ∧
    ∀ row ∈ join_orders_with_transactions orders (load_transactions txs),
      (¬ ∃ t ∈ txs, t.status = "SUCCESS" ∧ t.order_id = row.order_id) →
      row.total_paid = 0 ∧ row.transaction_count = 0 := by
  refine ⟨?_, join_map_toOrder orders (load_transactions txs), ?_⟩
  · have := congrArg List.length
      (join_map_toOrder orders (load_transactions txs))
    rwa [List.length_map] at this
  · intro row hrow hno
    unfold join_orders_with_transactions at hrow
    rw [List.mem_flatMap] at hrow
    obtain ⟨o, _, hro⟩ := hrow
    rcases filter_key_of_nodup TxSummary.order_id
      (transactionSummary_keys_nodup (load_transactions txs))
      o.order_id with h | ⟨s, hs, hks, hsl⟩
    · rw [h] at hro
      simp only [List.isEmpty_nil, if_true, List.mem_singleton] at hro
      subst hro
      exact ⟨rfl, rfl⟩
    · rw [hs] at hro
      simp at hro
      exfalso
      apply hno
      obtain ⟨t, ht, htk⟩ := mem_transactionSummary_src hsl
      unfold load_transactions at ht
      rw [List.mem_filter, decide_eq_true_eq] at ht
      refine ⟨t, ht.1, ht.2, ?_⟩
      have hrowid : row.order_id = o.order_id := by
        subst hro; rfl
      rw [hrowid, htk, hks]

/-- Concrete witness for C10 at one order and no transactions. -/
theorem join_one_row_per_order_witness :
    ({ order_id := "ORD001", account_id := some "ACC001"
       order_date := { ym := 5, day := 1 }, total_amount := 100
       product_count := 1, status := "COMPLETED", total_paid := 0
       transaction_count := 0 } : EnrichedOrder).total_paid = 0 ∧
    ({ order_id := "ORD001", account_id := some "ACC001"
       order_date := { ym := 5, day := 1 }, total_amount := 100
       product_count := 1, status := "COMPLETED", total_paid := 0
       transaction_count := 0 } : EnrichedOrder).transaction_count = 0 :=
  (join_one_row_per_order [sampleOrder] []).2.2 _ (by decide) (by decide)

/-- Claim C8: two pipeline runs that differ only in the transactions input
produce identical outputs, so every output row's `monthly_total`,
`order_count` and `total_products` are unaffected by transaction data. -/
theorem transactions_do_not_feed_totals (accounts : List Account)
    (orders : List Order) (txs1 txs2 : List Transaction)
    (target_month : Option Nat) (ts : Nat) :
    run_pipeline accounts orders txs1 target_month ts =
      run_pipeline accounts orders txs2 target_month ts := by
  unfold run_pipeline
  simp only [join_map_toOrder]

/-- A holding row without its capture timestamp. -/
def stripTimestamp (h : HoldingRow) : BaseRow × Option String :=
  (h.base, h.hold_reason)

/-- Claim C6 counterexample: two runs of the full pipeline on identical inputs
and the same (absent) target month, executed at routing wall-clock times
0 and 1, produce different outputs, because the held record's
`hold_timestamp` records the wall-clock time of its run. -/
theorem rerun_not_byte_identical :
    run_pipeline [] [sampleOrder] [] none 0 ≠
      run_pipeline [] [sampleOrder] [] none 1 := by
  intro h
  have h2 : (run_pipeline [] [sampleOrder] [] none 0).holding_table.map
        HoldingRow.hold_timestamp =
      (run_pipeline [] [sampleOrder] [] none 1).holding_table.map
        HoldingRow.hold_timestamp := by rw [h]
  have h0 : (run_pipeline [] [sampleOrder] [] none 0).holding_table.map
      HoldingRow.hold_timestamp = [0] := by decide
  have h1 : (run_pipeline [] [sampleOrder] [] none 1).holding_table.map
      HoldingRow.hold_timestamp = [1] := by decide
  rw [h0, h1] at h2
  exact absurd h2 (by decide)

/-- Claim C6 amended: re-running the full pipeline on identical inputs with the
same target month yields an identical accepted set and a held set
identical in every column except `hold_timestamp`, which records the
wall-clock time of each run's routing step. -/
theorem rerun_stable_except_timestamp (accounts : List Account)
    (orders : List Order) (txs : List Transaction)
    (target_month : Option Nat) (ts1 ts2 : Nat) :
    (run_pipeline accounts orders txs target_month ts1).result_table =
      (run_pipeline accounts orders txs target_month ts2).result_table ∧
    (run_pipeline accounts orders txs target_month ts1).holding_table.map
        stripTimestamp =
      (run_pipeline accounts orders txs target_month ts2).holding_table.map
        stripTimestamp := by
  unfold run_pipeline validate_orders split_by_validation
  exact ⟨rfl, by simp [List.map_map, stripTimestamp, Function.comp]⟩

/-- Claim C7: when the target-month filter matches no enriched record, the
pipeline returns an empty but well-typed dual output instead of failing,
and the result summary of the empty result table is all zeros. -/
theorem empty_target_month (orders : List Order) (accounts : List Account)
    (m : Nat) (ts : Nat)
    (h : ∀ r ∈ enrich_with_account_data
      (calculate_monthly_totals orders) accounts, r.order_month ≠ m) :
    validate_orders orders accounts (some m) ts =
      { result_table := [], holding_table := [] } ∧
    get_result_summary [] =
      { total_records := 0, total_amount := 0, total_orders := 0 } := by
  refine ⟨?_, rfl⟩
  unfold validate_orders select_target_month
  have hnil : (enrich_with_account_data
      (calculate_monthly_totals orders) accounts).filter
      (fun r => r.order_month = m) = [] := by
    rw [List.filter_eq_nil_iff]
    intro r hr hrm
    exact h r hr (decide_eq_true_eq.mp hrm)
  simp only [hnil]
  rfl

/-- Concrete witness for C7: one order in month 5 against target month 7
yields the empty dual output and the all-zero summary. -/
theorem empty_target_month_witness :
    validate_orders [sampleOrder] [sampleAccount] (some 7) 0 =
      { result_table := [], holding_table := [] } ∧
    get_result_summary [] =
      { total_records := 0, total_amount := 0, total_orders := 0 } :=
  empty_target_month [sampleOrder] [sampleAccount] 7 0 (by decide)

end CustomerOrders
